import Mathlib

/-!
Verification of the goatgames daily-report script (`daily_report_weekday.py`).

Two components are embedded:

* the ROI projection engine (module-level pandas code, lines 286-401 of the
  source): daily metric rows, trailing-window extrapolation coefficients,
  month-to-date aggregates and the 7-row weekly table;
* the `DingTalkBot` webhook client (lines 12-284): HMAC-SHA256 signed URL
  construction and the payload/response contract of the send operations.

Modelling conventions:

* pandas/numpy float64 arithmetic is modelled by `PFloat`: exact rationals for
  finite values plus the IEEE-754 non-finite values `nan`, `inf`, `ninf`.
  Division by a zero denominator therefore yields a non-finite sentinel, as
  numpy division of float64 scalars does (it warns, it does not raise).
  Rounding of finite arithmetic is idealised away (sums and products are
  exact), which is the standard idealisation for value-level properties.
* a Python `datetime.date` is a `Date` triple `(year, month, day)` of integers;
  chronological comparison and `timedelta` arithmetic act on its proleptic
  Gregorian day number `Date.toOrd` (Python's `date.toordinal` up to a
  constant shift), which is how `pandas` comparisons behave on valid dates.
* effectful inputs (the HTTP response, the wall clock) are passed as explicit
  parameters; a Python exception is `Except.error`.
-/

namespace DailyReport

/-- A pandas float64 scalar: a finite rational or one of the IEEE-754
non-finite values. -/
inductive PFloat where
  | nan : PFloat
  | inf : PFloat
  | ninf : PFloat
  | fin : ℚ → PFloat
deriving DecidableEq

/-- IEEE-754 multiplication on `PFloat` (exact on finite operands). -/
def PFloat.mul : PFloat → PFloat → PFloat
  | .nan, _ => .nan
  | _, .nan => .nan
  | .inf, .inf => .inf
  | .inf, .ninf => .ninf
  | .ninf, .inf => .ninf
  | .ninf, .ninf => .inf
  | .inf, .fin q => if q = 0 then .nan else if 0 < q then .inf else .ninf
  | .fin q, .inf => if q = 0 then .nan else if 0 < q then .inf else .ninf
  | .ninf, .fin q => if q = 0 then .nan else if 0 < q then .ninf else .inf
  | .fin q, .ninf => if q = 0 then .nan else if 0 < q then .ninf else .inf
  | .fin a, .fin b => .fin (a * b)

/-- IEEE-754 division of two finite float64 values: a zero denominator gives
`nan` (0/0) or a signed infinity, never an exception. -/
def fdiv (a b : ℚ) : PFloat :=
  if b = 0 then (if a = 0 then .nan else if 0 < a then .inf else .ninf)
  else .fin (a / b)

/-- Whether a `PFloat` is finite (not one of the sentinel values). -/
def PFloat.isFin : PFloat → Bool
  | .fin _ => true
  | _ => false

/-- A Python `datetime.date`: a year-month-day triple of machine integers. -/
structure Date where
  year : ℤ
  month : ℤ
  day : ℤ
deriving DecidableEq

/-- Proleptic Gregorian day number of a date (the civil-from-triple formula;
Python's `date.toordinal` up to a constant shift).  Chronological comparison
of `datetime` values and `timedelta(days=k)` arithmetic are, respectively,
comparison and subtraction of this number. -/
def Date.toOrd (dt : Date) : ℤ :=
  let y := if dt.month ≤ 2 then dt.year - 1 else dt.year
  let era := Int.ediv y 400
  let yoe := y - era * 400
  let mp := Int.emod (dt.month + 9) 12
  let doy := Int.ediv (153 * mp + 2) 5 + dt.day - 1
  let doe := yoe * 365 + Int.ediv yoe 4 - Int.ediv yoe 100 + doy
  era * 146097 + doe

/-- `toOrd` is affine in the day field: stepping the `day` component steps the
day number, for any integer day values (the formula is linear in `day`). -/
theorem Date.toOrd_day_shift (y m d k : ℤ) :
    Date.toOrd ⟨y, m, d - k⟩ = Date.toOrd ⟨y, m, d⟩ - k := by
  simp only [Date.toOrd]
  ring

/-- The day-number embedding agrees with Python's `date.toordinal` (shifted):
pinned against `date(2026, 10, 12).toordinal() - date(1, 1, 1).toordinal()`
and the leap/non-leap February lengths of 2024 and 2025. -/
theorem toOrd_python_ordinal_pins :
    Date.toOrd ⟨2026, 10, 12⟩ - Date.toOrd ⟨1, 1, 1⟩ = 739900 ∧
    Date.toOrd ⟨2024, 3, 1⟩ - Date.toOrd ⟨2024, 2, 28⟩ = 2 ∧
    Date.toOrd ⟨2025, 3, 1⟩ - Date.toOrd ⟨2025, 2, 28⟩ = 1 := by
  refine ⟨?_, ?_, ?_⟩ <;> decide

/-- One aggregated day of ad data: the columns of the analytics feed that the
report reads (`end_date` is the row's calendar day after daily aggregation). -/
structure Row where
  end_date : Date
  cost : ℚ
  install : ℚ
  pay_sum_1 : ℚ
  pay_sum_3 : ℚ
  pay_sum_7 : ℚ
  roi_1 : ℚ
  roi_3 : ℚ
  roi_7 : ℚ
deriving DecidableEq

/-- `series.sum()` of one column over a list of rows. -/
def colSum (f : Row → ℚ) (l : List Row) : ℚ := (l.map f).sum

/-- The window filter pattern
`data[(data.end_date <= hi) & (data.end_date >= lo)]`, with dates compared
chronologically (by ordinal). -/
def winRows (data : List Row) (hi lo : ℤ) : List Row :=
  data.filter (fun r => decide (r.end_date.toOrd ≤ hi ∧ lo ≤ r.end_date.toOrd))

/-- `this_month_data = data[data.end_date.dt.month == today.month]` — the
source filters on the month number only (the feed's date range, last month's
first day through today, is what keeps other years out). -/
def thisMonthData (data : List Row) (today : Date) : List Row :=
  data.filter (fun r => decide (r.end_date.month = today.month))

/-- `three_one_coefficient` (source lines 337-340): summed `pay_sum_3` over
summed `pay_sum_1`, both over the window `today-17d .. today-3d`. -/
def three_one_coefficient (data : List Row) (today : Date) : PFloat :=
  fdiv (colSum Row.pay_sum_3 (winRows data (today.toOrd - 3) (today.toOrd - 17)))
       (colSum Row.pay_sum_1 (winRows data (today.toOrd - 3) (today.toOrd - 17)))

/-- `seven_three_coefficient` (source lines 341-344): summed `pay_sum_7` over
summed `pay_sum_3`, both over the window `today-21d .. today-7d`. -/
def seven_three_coefficient (data : List Row) (today : Date) : PFloat :=
  fdiv (colSum Row.pay_sum_7 (winRows data (today.toOrd - 7) (today.toOrd - 21)))
       (colSum Row.pay_sum_3 (winRows data (today.toOrd - 7) (today.toOrd - 21)))

/-- `predicted_7roi` (source line 359):
`this_month.pay_sum_1.sum()/this_month.cost.sum() * three_one_coefficient * seven_three_coefficient`. -/
def predicted_7roi (data : List Row) (today : Date) : PFloat :=
  ((fdiv (colSum Row.pay_sum_1 (thisMonthData data today))
         (colSum Row.cost (thisMonthData data today))).mul
    (three_one_coefficient data today)).mul (seven_three_coefficient data today)

/-- Round a rational to the nearest integer, ties to even — the rounding of
Python's `round` builtin. -/
def roundTiesEven (x : ℚ) : ℤ :=
  let f := ⌊x⌋
  let r := x - (f : ℚ)
  if r < 1 / 2 then f
  else if 1 / 2 < r then f + 1
  else if f % 2 = 0 then f else f + 1

/-- `round(x, n)` for a finite value: round to `n` decimal places. -/
def roundTo (n : ℕ) (q : ℚ) : ℚ := (roundTiesEven (q * 10 ^ n) : ℚ) / 10 ^ n

/-- `round(x, n)` on a float64: non-finite values pass through. -/
def roundP (n : ℕ) : PFloat → PFloat
  | .fin q => .fin (roundTo n q)
  | x => x

/-- `total_7roi_calculator` (source lines 349-357).  Fewer than 7
month-to-date rows returns the integer 0.  Otherwise the cutoff is the parsed
string `f"{today.year}-{today.month}-{today.day-6}"`; if `today.day - 6 < 1`
that string is not a date and pandas raises while comparing (`none` here) —
under the deduplicated-feed precondition this branch is unreachable. -/
def total_7roi_calculator (data : List Row) (today : Date) : Option PFloat :=
  let tm := thisMonthData data today
  if tm.length < 7 then some (.fin 0)
  else if today.day - 6 < 1 then none
  else
    let cutoff := Date.toOrd ⟨today.year, today.month, today.day - 6⟩
    let roi_data := tm.filter (fun r => decide (r.end_date.toOrd ≤ cutoff))
    some (roundP 4 (fdiv (colSum Row.pay_sum_7 roi_data) (colSum Row.cost roi_data)))

/-- `index_three_one_coefficient` of weekly-loop iteration `i` (source lines
383-386), with `k = 7 - i`: the 3-to-1 ratio over `today-(k+16)d .. today-(k+2)d`. -/
def index_three_one_coefficient (data : List Row) (today : Date) (k : ℤ) : PFloat :=
  fdiv (colSum Row.pay_sum_3 (winRows data (today.toOrd - (k + 2)) (today.toOrd - (k + 16))))
       (colSum Row.pay_sum_1 (winRows data (today.toOrd - (k + 2)) (today.toOrd - (k + 16))))

/-- `index_seven_three_coefficient` of weekly-loop iteration `i` (source lines
387-390), with `k = 7 - i`: the 7-to-3 ratio over `today-(k+20)d .. today-(k+6)d`. -/
def index_seven_three_coefficient (data : List Row) (today : Date) (k : ℤ) : PFloat :=
  fdiv (colSum Row.pay_sum_7 (winRows data (today.toOrd - (k + 6)) (today.toOrd - (k + 20))))
       (colSum Row.pay_sum_3 (winRows data (today.toOrd - (k + 6)) (today.toOrd - (k + 20))))

/-- The label lookup `data[data.end_date == index_day][col][k]` of the weekly
loop: selecting integer label `k` on the filtered frame succeeds exactly when
the row at original position `k` exists and is dated `index_day` (`dOrd` as an
ordinal); otherwise pandas raises a `KeyError` (`none` here). -/
def lookupCell (data : List Row) (dOrd : ℤ) (k : ℕ) : Option Row :=
  match data[k]? with
  | some r => if r.end_date.toOrd = dOrd then some r else none
  | none => none

/-- One row of the weekly table, before string formatting: the row's date (as
an ordinal), its cost cell (`round(cost, 2)`), install cell, and the three ROI
cells (float64 values; the `.2%` percent formatting is presentation only). -/
structure TableRow where
  dateOrd : ℤ
  cost : ℚ
  install : ℚ
  roi1 : PFloat
  roi3 : PFloat
  roi7 : PFloat
deriving DecidableEq

/-- One iteration of the weekly-table loop (source lines 372-401), for
`i in range(7)`.  `index_date = today - timedelta(days=7-i)`; every cell
lookup uses label `7-i`; the row-local coefficient windows are
`today-(7-i+16)d .. today-(7-i+2)d` and `today-(7-i+20)d .. today-(7-i+6)d`;
`roi_3`/`roi_7` use the observed column when `index_date` is at most
`today-2d` / `today-6d` and otherwise project from `roi_1` via the row-local
coefficients.  A failed lookup is the loop's uncaught `KeyError` (`none`). -/
def weeklyRow (data : List Row) (today : Date) (i : ℕ) : Option TableRow :=
  let k : ℕ := 7 - i
  let tOrd := today.toOrd
  let dOrd := tOrd - (k : ℤ)
  match lookupCell data dOrd k with
  | none => none
  | some r =>
    let c31 := index_three_one_coefficient data today (k : ℤ)
    let c73 := index_seven_three_coefficient data today (k : ℤ)
    let roi3 := if dOrd ≤ tOrd - 2 then PFloat.fin r.roi_3
                else (PFloat.fin r.roi_1).mul c31
    let roi7 := if dOrd ≤ tOrd - 6 then PFloat.fin r.roi_7
                else ((PFloat.fin r.roi_1).mul c31).mul c73
    some ⟨dOrd, roundTo 2 r.cost, r.install, .fin r.roi_1, roi3, roi7⟩

/-- `my_table` (source lines 371-401): the 7 weekly rows in loop order; any
iteration's uncaught lookup failure aborts the whole construction. -/
def my_table (data : List Row) (today : Date) : Option (List TableRow) :=
  (List.range 7).mapM (weeklyRow data today)

/-- Spec-side window: the rows dated in the closed interval `[lo, hi]`
(day ordinals). -/
def winRowsSpec (data : List Row) (lo hi : ℤ) : List Row :=
  data.filter (fun r => decide (lo ≤ r.end_date.toOrd ∧ r.end_date.toOrd ≤ hi))

/-- Spec-side global coefficient: `Σ pay_sum_3 / Σ pay_sum_1` over rows dated
in `[as_of - 17d, as_of - 3d]`. -/
def ratio_3_over_1_global (data : List Row) (as_of : Date) : PFloat :=
  fdiv (colSum Row.pay_sum_3 (winRowsSpec data (as_of.toOrd - 17) (as_of.toOrd - 3)))
       (colSum Row.pay_sum_1 (winRowsSpec data (as_of.toOrd - 17) (as_of.toOrd - 3)))

/-- Spec-side global coefficient: `Σ pay_sum_7 / Σ pay_sum_3` over rows dated
in `[as_of - 21d, as_of - 7d]`. -/
def ratio_7_over_3_global (data : List Row) (as_of : Date) : PFloat :=
  fdiv (colSum Row.pay_sum_7 (winRowsSpec data (as_of.toOrd - 21) (as_of.toOrd - 7)))
       (colSum Row.pay_sum_3 (winRowsSpec data (as_of.toOrd - 21) (as_of.toOrd - 7)))

/-- Spec-side month-to-date 1-day ROI: `Σ pay_sum_1 / Σ cost` over the
month-to-date rows. -/
def total_1roi_spec (data : List Row) (as_of : Date) : PFloat :=
  fdiv (colSum Row.pay_sum_1 (thisMonthData data as_of))
       (colSum Row.cost (thisMonthData data as_of))

/-- Spec-side row-local coefficient: the 3-to-1 ratio over rows dated in
`[date - 16d, date - 2d]`, anchored at the row's own date. -/
def row_ratio_3_over_1 (data : List Row) (dOrd : ℤ) : PFloat :=
  fdiv (colSum Row.pay_sum_3 (winRowsSpec data (dOrd - 16) (dOrd - 2)))
       (colSum Row.pay_sum_1 (winRowsSpec data (dOrd - 16) (dOrd - 2)))

/-- Spec-side row-local coefficient: the 7-to-3 ratio over rows dated in
`[date - 20d, date - 6d]`, anchored at the row's own date. -/
def row_ratio_7_over_3 (data : List Row) (dOrd : ℤ) : PFloat :=
  fdiv (colSum Row.pay_sum_7 (winRowsSpec data (dOrd - 20) (dOrd - 6)))
       (colSum Row.pay_sum_3 (winRowsSpec data (dOrd - 20) (dOrd - 6)))

theorem winRows_eq_spec (data : List Row) (hi lo : ℤ) :
    winRows data hi lo = winRowsSpec data lo hi := by
  apply List.filter_congr
  intro r _
  exact decide_eq_decide.mpr and_comm

theorem PFloat.isFin_mul (a b : PFloat) :
    (a.mul b).isFin = (a.isFin && b.isFin) := by
  cases a <;> cases b <;> simp only [PFloat.mul, PFloat.isFin, Bool.and_self,
    Bool.and_true, Bool.true_and, Bool.and_false, Bool.false_and] <;> split_ifs <;> rfl

theorem PFloat.ne_fin_of_isFin_false {x : PFloat} (h : x.isFin = false) (q : ℚ) :
    x ≠ .fin q := by
  cases x <;> simp [PFloat.isFin] at h ⊢

theorem fdiv_isFin_false {a b : ℚ} (h : b = 0) : (fdiv a b).isFin = false := by
  subst h
  simp only [fdiv, if_pos rfl]
  split_ifs <;> rfl

/-- An empty window or a zero column sum over it makes the column sum zero. -/
theorem colSum_zero_of_empty_or_zero {f : Row → ℚ} {l : List Row}
    (h : l = [] ∨ colSum f l = 0) : colSum f l = 0 := by
  rcases h with h | h
  · rw [h]; rfl
  · exact h

/-- C5: the global `ratio_3_over_1` is the summed `pay_sum_3` over the summed
`pay_sum_1` of the rows dated in `[as_of-17d, as_of-3d]`; the global
`ratio_7_over_3` is the summed `pay_sum_7` over the summed `pay_sum_3` of the
rows dated in `[as_of-21d, as_of-7d]`; and `predicted_7roi` is the
month-to-date 1-day ROI multiplied by both global coefficients. -/
theorem C5_global_coefficients (data : List Row) (today : Date) :
    three_one_coefficient data today = ratio_3_over_1_global data today ∧
    seven_three_coefficient data today = ratio_7_over_3_global data today ∧
    predicted_7roi data today =
      ((total_1roi_spec data today).mul (ratio_3_over_1_global data today)).mul
        (ratio_7_over_3_global data today) := by
  have h31 : three_one_coefficient data today = ratio_3_over_1_global data today := by
    simp only [three_one_coefficient, ratio_3_over_1_global, winRows_eq_spec]
  have h73 : seven_three_coefficient data today = ratio_7_over_3_global data today := by
    simp only [seven_three_coefficient, ratio_7_over_3_global, winRows_eq_spec]
  refine ⟨h31, h73, ?_⟩
  simp only [predicted_7roi, total_1roi_spec, h31, h73]

/-- C1: when a coefficient's lookback window has no rows or a zero summed
denominator (`pay_sum_1` for the 3-to-1 ratio, `pay_sum_3` for the 7-to-3
ratio), the numpy float64 division produces a non-finite sentinel (NaN or a
signed infinity) instead of raising, for the global coefficients and for the
row-local ones of the weekly loop; and `predicted_7roi` built from such a
sentinel coefficient is itself non-finite — in particular it is not silently
the float 0. -/
theorem C1_division_guard (data : List Row) (today : Date) :
    ((winRows data (today.toOrd - 3) (today.toOrd - 17) = [] ∨
        colSum Row.pay_sum_1 (winRows data (today.toOrd - 3) (today.toOrd - 17)) = 0) →
      (three_one_coefficient data today).isFin = false ∧
      (predicted_7roi data today).isFin = false ∧
      predicted_7roi data today ≠ .fin 0) ∧
    ((winRows data (today.toOrd - 7) (today.toOrd - 21) = [] ∨
        colSum Row.pay_sum_3 (winRows data (today.toOrd - 7) (today.toOrd - 21)) = 0) →
      (seven_three_coefficient data today).isFin = false ∧
      (predicted_7roi data today).isFin = false ∧
      predicted_7roi data today ≠ .fin 0) ∧
    (∀ k : ℤ,
      ((winRows data (today.toOrd - (k + 2)) (today.toOrd - (k + 16)) = [] ∨
          colSum Row.pay_sum_1 (winRows data (today.toOrd - (k + 2)) (today.toOrd - (k + 16))) = 0) →
        (index_three_one_coefficient data today k).isFin = false) ∧
      ((winRows data (today.toOrd - (k + 6)) (today.toOrd - (k + 20)) = [] ∨
          colSum Row.pay_sum_3 (winRows data (today.toOrd - (k + 6)) (today.toOrd - (k + 20))) = 0) →
        (index_seven_three_coefficient data today k).isFin = false)) := by
  refine ⟨?_, ?_, ?_⟩
  · intro h
    have hz := colSum_zero_of_empty_or_zero h
    have hc : (three_one_coefficient data today).isFin = false :=
      fdiv_isFin_false hz
    have hp : (predicted_7roi data today).isFin = false := by
      simp only [predicted_7roi, PFloat.isFin_mul, hc, Bool.and_false, Bool.false_and]
    exact ⟨hc, hp, PFloat.ne_fin_of_isFin_false hp 0⟩
  · intro h
    have hz := colSum_zero_of_empty_or_zero h
    have hc : (seven_three_coefficient data today).isFin = false :=
      fdiv_isFin_false hz
    have hp : (predicted_7roi data today).isFin = false := by
      simp only [predicted_7roi, PFloat.isFin_mul, hc, Bool.and_false]
    exact ⟨hc, hp, PFloat.ne_fin_of_isFin_false hp 0⟩
  · intro k
    exact ⟨fun h => fdiv_isFin_false (colSum_zero_of_empty_or_zero h),
           fun h => fdiv_isFin_false (colSum_zero_of_empty_or_zero h)⟩

theorem C1_division_guard_witness :
    (winRows [] (Date.toOrd ⟨2026, 1, 1⟩ - 3) (Date.toOrd ⟨2026, 1, 1⟩ - 17) = [] ∨
      colSum Row.pay_sum_1 (winRows [] (Date.toOrd ⟨2026, 1, 1⟩ - 3) (Date.toOrd ⟨2026, 1, 1⟩ - 17)) = 0) ∧
    ((three_one_coefficient [] ⟨2026, 1, 1⟩).isFin = false ∧
     (predicted_7roi [] ⟨2026, 1, 1⟩).isFin = false ∧
     predicted_7roi [] ⟨2026, 1, 1⟩ ≠ .fin 0) :=
  ⟨Or.inl rfl, (C1_division_guard [] ⟨2026, 1, 1⟩).1 (Or.inl rfl)⟩

/-- Deduplicated month-to-date rows bounded by the as-of day leave at most
`today.day` distinct rows: their day numbers are distinct integers in
`[1, today.day]`. -/
theorem month_rows_day_bound (l : List Row) (today : Date)
    (hb : ∀ r ∈ l, r.end_date.year = today.year ∧ r.end_date.month = today.month ∧
          1 ≤ r.end_date.day ∧ r.end_date.day ≤ today.day)
    (hd : l.Pairwise (fun a b => a.end_date ≠ b.end_date)) :
    l.length ≤ today.day.toNat := by
  have hnd : (l.map (fun r => r.end_date.day)).Nodup := by
    unfold List.Nodup
    rw [List.pairwise_map]
    refine hd.imp_of_mem ?_
    intro a b ha hbm hne heq
    apply hne
    obtain ⟨hay, ham, -, -⟩ := hb a ha
    obtain ⟨hby, hbmm, -, -⟩ := hb b hbm
    calc a.end_date = ⟨a.end_date.year, a.end_date.month, a.end_date.day⟩ := rfl
      _ = ⟨b.end_date.year, b.end_date.month, b.end_date.day⟩ := by
            rw [hay, hby, ham, hbmm, heq]
      _ = b.end_date := rfl
  have hsub : (l.map (fun r => r.end_date.day)).toFinset ⊆ Finset.Icc 1 today.day := by
    intro x hx
    rw [List.mem_toFinset] at hx
    obtain ⟨r, hr, rfl⟩ := List.mem_map.mp hx
    obtain ⟨-, -, h1, h2⟩ := hb r hr
    exact Finset.mem_Icc.mpr ⟨h1, h2⟩
  have hcard := Finset.card_le_card hsub
  rw [List.toFinset_card_of_nodup hnd, Int.card_Icc, List.length_map] at hcard
  omega

/-- Each `thisMonthData` row passes the month filter. -/
theorem thisMonthData_month {data : List Row} {today : Date} {r : Row}
    (hr : r ∈ thisMonthData data today) : r.end_date.month = today.month := by
  have := (List.mem_filter.mp hr).2
  exact of_decide_eq_true this

/-- C3: with at most one row per date and month-to-date rows bounded by the
as-of day (the feed's shape), `total_7roi` is exactly the integer 0 whenever
fewer than 7 month-to-date rows exist — whatever the cost and revenue values —
and otherwise is `Σ pay_sum_7 / Σ cost` over the month-to-date rows dated at
most `as_of - 6d`, rounded to 4 decimal places. -/
theorem C3_total_7roi (data : List Row) (today : Date)
    (hbound : ∀ r ∈ thisMonthData data today,
      r.end_date.year = today.year ∧ 1 ≤ r.end_date.day ∧ r.end_date.day ≤ today.day)
    (hdist : (thisMonthData data today).Pairwise (fun a b => a.end_date ≠ b.end_date)) :
    ((thisMonthData data today).length < 7 →
      total_7roi_calculator data today = some (.fin 0)) ∧
    (7 ≤ (thisMonthData data today).length →
      total_7roi_calculator data today =
        some (roundP 4 (fdiv
          (colSum Row.pay_sum_7 ((thisMonthData data today).filter
            (fun r => decide (r.end_date.toOrd ≤ today.toOrd - 6))))
          (colSum Row.cost ((thisMonthData data today).filter
            (fun r => decide (r.end_date.toOrd ≤ today.toOrd - 6))))))) := by
  constructor
  · intro h
    simp only [total_7roi_calculator]
    rw [if_pos h]
  · intro h
    have hday : 7 ≤ today.day := by
      have hb : ∀ r ∈ thisMonthData data today,
          r.end_date.year = today.year ∧ r.end_date.month = today.month ∧
          1 ≤ r.end_date.day ∧ r.end_date.day ≤ today.day := by
        intro r hr
        obtain ⟨h1, h2, h3⟩ := hbound r hr
        exact ⟨h1, thisMonthData_month hr, h2, h3⟩
      have := month_rows_day_bound (thisMonthData data today) today hb hdist
      omega
    have hcut : Date.toOrd ⟨today.year, today.month, today.day - 6⟩ = today.toOrd - 6 := by
      have := Date.toOrd_day_shift today.year today.month today.day 6
      exact this
    simp only [total_7roi_calculator]
    rw [if_neg (by omega), if_neg (by omega), hcut]

/-- A concrete as-of date for concrete-input checks. -/
def sampleToday : Date := ⟨2026, 10, 12⟩

/-- A concrete feed shaped like the analytics response: one row per day,
newest first, row `k` dated `sampleToday - k` days, October 2026. -/
def sampleData : List Row :=
  (List.range 12).map (fun k =>
    ⟨⟨2026, 10, 12 - (k : ℤ)⟩, 1000, 100, 50, 70, 90, 2, 3, 4⟩)

theorem C3_total_7roi_witness :
    (7 ≤ (thisMonthData sampleData sampleToday).length) ∧
    total_7roi_calculator sampleData sampleToday =
      some (roundP 4 (fdiv
        (colSum Row.pay_sum_7 ((thisMonthData sampleData sampleToday).filter
          (fun r => decide (r.end_date.toOrd ≤ sampleToday.toOrd - 6))))
        (colSum Row.cost ((thisMonthData sampleData sampleToday).filter
          (fun r => decide (r.end_date.toOrd ≤ sampleToday.toOrd - 6)))))) :=
  ⟨by decide,
   (C3_total_7roi sampleData sampleToday (by decide) (by decide)).2 (by decide)⟩

theorem lookupCell_eq {data : List Row} {dOrd : ℤ} {k : ℕ} {r : Row}
    (hr : data[k]? = some r) (hd : r.end_date.toOrd = dOrd) :
    lookupCell data dOrd k = some r := by
  simp [lookupCell, hr, hd]

/-- The weekly-loop iteration on a feed that has the expected row at label
`7 - i`: every cell spelled out.  Shared shape lemma for the table claims. -/
theorem weeklyRow_eq (data : List Row) (today : Date) (i : ℕ) (hi : i < 7)
    (r : Row) (hr : data[7 - i]? = some r)
    (hd : r.end_date.toOrd = today.toOrd - ((7 : ℤ) - (i : ℤ))) :
    weeklyRow data today i = some
      ⟨today.toOrd - ((7 : ℤ) - (i : ℤ)), roundTo 2 r.cost, r.install, .fin r.roi_1,
       (if today.toOrd - ((7 : ℤ) - (i : ℤ)) ≤ today.toOrd - 2 then PFloat.fin r.roi_3
        else (PFloat.fin r.roi_1).mul
          (index_three_one_coefficient data today ((7 : ℤ) - (i : ℤ)))),
       (if today.toOrd - ((7 : ℤ) - (i : ℤ)) ≤ today.toOrd - 6 then PFloat.fin r.roi_7
        else ((PFloat.fin r.roi_1).mul
            (index_three_one_coefficient data today ((7 : ℤ) - (i : ℤ)))).mul
          (index_seven_three_coefficient data today ((7 : ℤ) - (i : ℤ))))⟩ := by
  have hk : ((7 - i : ℕ) : ℤ) = (7 : ℤ) - (i : ℤ) := by omega
  have hcell : lookupCell data (today.toOrd - ((7 - i : ℕ) : ℤ)) (7 - i) = some r := by
    apply lookupCell_eq hr
    rw [hd, hk]
  rw [hk] at hcell
  simp only [weeklyRow, hk, hcell]

theorem index_three_one_eq_row (data : List Row) (today : Date) (k : ℤ) :
    index_three_one_coefficient data today k =
      row_ratio_3_over_1 data (today.toOrd - k) := by
  have e1 : today.toOrd - (k + 16) = today.toOrd - k - 16 := by ring
  have e2 : today.toOrd - (k + 2) = today.toOrd - k - 2 := by ring
  simp only [index_three_one_coefficient, row_ratio_3_over_1, winRows_eq_spec, e1, e2]

theorem index_seven_three_eq_row (data : List Row) (today : Date) (k : ℤ) :
    index_seven_three_coefficient data today k =
      row_ratio_7_over_3 data (today.toOrd - k) := by
  have e1 : today.toOrd - (k + 20) = today.toOrd - k - 20 := by ring
  have e2 : today.toOrd - (k + 6) = today.toOrd - k - 6 := by ring
  simp only [index_seven_three_coefficient, row_ratio_7_over_3, winRows_eq_spec, e1, e2]

/-- C4: in the weekly table row for date `d = as_of - (7-i)` days, `roi_1` is
always the observed `roi_1`; `roi_3` is the observed `roi_3` exactly when
`d ≤ as_of - 2d` and otherwise `roi_1` times the row-local 3-to-1 coefficient
over `[d-16d, d-2d]`; `roi_7` is the observed `roi_7` exactly when
`d ≤ as_of - 6d` and otherwise `roi_1` times the row-local 3-to-1 times the
row-local 7-to-3 coefficient — projection never replaces a mature cell. -/
theorem C4_weekly_row_projection (data : List Row) (today : Date) (i : ℕ)
    (hi : i < 7) (r : Row) (hr : data[7 - i]? = some r)
    (hd : r.end_date.toOrd = today.toOrd - ((7 : ℤ) - (i : ℤ))) :
    weeklyRow data today i = some
      ⟨today.toOrd - ((7 : ℤ) - (i : ℤ)), roundTo 2 r.cost, r.install, .fin r.roi_1,
       (if today.toOrd - ((7 : ℤ) - (i : ℤ)) ≤ today.toOrd - 2 then PFloat.fin r.roi_3
        else (PFloat.fin r.roi_1).mul
          (row_ratio_3_over_1 data (today.toOrd - ((7 : ℤ) - (i : ℤ))))),
       (if today.toOrd - ((7 : ℤ) - (i : ℤ)) ≤ today.toOrd - 6 then PFloat.fin r.roi_7
        else ((PFloat.fin r.roi_1).mul
            (row_ratio_3_over_1 data (today.toOrd - ((7 : ℤ) - (i : ℤ))))).mul
          (row_ratio_7_over_3 data (today.toOrd - ((7 : ℤ) - (i : ℤ)))))⟩ := by
  rw [weeklyRow_eq data today i hi r hr hd, index_three_one_eq_row,
      index_seven_three_eq_row]

/-- The row of `sampleData` dated one day before `sampleToday`. -/
def sampleRow1 : Row := ⟨⟨2026, 10, 11⟩, 1000, 100, 50, 70, 90, 2, 3, 4⟩

theorem C4_weekly_row_projection_witness :
    (sampleData[7 - 6]? = some sampleRow1) ∧
    (sampleRow1.end_date.toOrd = sampleToday.toOrd - ((7 : ℤ) - ((6 : ℕ) : ℤ))) ∧
    weeklyRow sampleData sampleToday 6 = some
      ⟨sampleToday.toOrd - ((7 : ℤ) - ((6 : ℕ) : ℤ)), roundTo 2 sampleRow1.cost,
       sampleRow1.install, .fin sampleRow1.roi_1,
       (if sampleToday.toOrd - ((7 : ℤ) - ((6 : ℕ) : ℤ)) ≤ sampleToday.toOrd - 2
        then PFloat.fin sampleRow1.roi_3
        else (PFloat.fin sampleRow1.roi_1).mul
          (row_ratio_3_over_1 sampleData (sampleToday.toOrd - ((7 : ℤ) - ((6 : ℕ) : ℤ))))),
       (if sampleToday.toOrd - ((7 : ℤ) - ((6 : ℕ) : ℤ)) ≤ sampleToday.toOrd - 6
        then PFloat.fin sampleRow1.roi_7
        else ((PFloat.fin sampleRow1.roi_1).mul
            (row_ratio_3_over_1 sampleData (sampleToday.toOrd - ((7 : ℤ) - ((6 : ℕ) : ℤ))))).mul
          (row_ratio_7_over_3 sampleData (sampleToday.toOrd - ((7 : ℤ) - ((6 : ℕ) : ℤ)))))⟩ :=
  ⟨by decide, by decide,
   C4_weekly_row_projection sampleData sampleToday 6 (by omega) sampleRow1
     (by decide) (by decide)⟩

/-- The feed shape the weekly loop's label lookups rely on (one row per date,
newest first): for each lag `k` in 1..7, the row at position `k` exists and is
dated `today - k` days. -/
def weeklyLookupOk (data : List Row) (today : Date) : Prop :=
  ∀ k : ℕ, k < 8 → 1 ≤ k →
    (data[k]?.map (fun r => r.end_date.toOrd) = some (today.toOrd - (k : ℤ)))

theorem weeklyLookupOk_get {data : List Row} {today : Date}
    (h : weeklyLookupOk data today) {k : ℕ} (h8 : k < 8) (h1 : 1 ≤ k) :
    ∃ r, data[k]? = some r ∧ r.end_date.toOrd = today.toOrd - (k : ℤ) := by
  have hk := h k h8 h1
  cases hg : data[k]? with
  | none => rw [hg] at hk; simp at hk
  | some r =>
    rw [hg] at hk
    simp at hk
    exact ⟨r, rfl, hk⟩

/-- `mapM` over a list of indices on which the row builder succeeds produces a
table of the same length whose dates are as prescribed. -/
theorem mapM_dateOrds {g : ℕ → Option TableRow} {f : ℕ → ℤ} (l : List ℕ)
    (h : ∀ i ∈ l, ∃ row, g i = some row ∧ row.dateOrd = f i) :
    ∃ t, l.mapM g = some t ∧ t.map TableRow.dateOrd = l.map f ∧
      t.length = l.length := by
  induction l with
  | nil => exact ⟨[], rfl, rfl, rfl⟩
  | cons a l ih =>
    obtain ⟨row, hrow, hdate⟩ := h a (List.mem_cons_self a l)
    obtain ⟨t, ht, hmap, hlen⟩ := ih (fun i hi => h i (List.mem_cons_of_mem a hi))
    refine ⟨row :: t, ?_, ?_, ?_⟩
    · rw [List.mapM_cons, hrow, ht]; rfl
    · simp [hmap, hdate]
    · simp [hlen]

/-- C9: on a feed satisfying the one-row-per-date shape, the weekly table is
built without error, has exactly 7 rows, and covers the dates `as_of - 7d`
through `as_of - 1d` inclusive, in ascending date order. -/
theorem C9_weekly_table_shape (data : List Row) (today : Date)
    (h : weeklyLookupOk data today) :
    ∃ t, my_table data today = some t ∧ t.length = 7 ∧
      t.map TableRow.dateOrd =
        [today.toOrd - 7, today.toOrd - 6, today.toOrd - 5, today.toOrd - 4,
         today.toOrd - 3, today.toOrd - 2, today.toOrd - 1] ∧
      List.Chain' (· < ·) (t.map TableRow.dateOrd) := by
  have hall : ∀ i ∈ List.range 7, ∃ row, weeklyRow data today i = some row ∧
      row.dateOrd = today.toOrd - ((7 : ℤ) - (i : ℤ)) := by
    intro i hi
    have hi7 : i < 7 := List.mem_range.mp hi
    obtain ⟨r, hr, hd⟩ := weeklyLookupOk_get h (k := 7 - i) (by omega) (by omega)
    have hd' : r.end_date.toOrd = today.toOrd - ((7 : ℤ) - (i : ℤ)) := by
      rw [hd]; omega
    exact ⟨_, weeklyRow_eq data today i hi7 r hr hd', rfl⟩
  obtain ⟨t, ht, hmap, hlen⟩ := mapM_dateOrds (List.range 7) hall
  have hdates : t.map TableRow.dateOrd =
      [today.toOrd - 7, today.toOrd - 6, today.toOrd - 5, today.toOrd - 4,
       today.toOrd - 3, today.toOrd - 2, today.toOrd - 1] := by
    rw [hmap]
    rw [show List.range 7 = [0, 1, 2, 3, 4, 5, 6] from rfl]
    simp only [List.map]
    norm_num
  refine ⟨t, ht, by rw [hlen]; rfl, hdates, ?_⟩
  rw [hdates]
  simp only [List.chain'_cons, List.chain'_singleton, and_true]
  omega

theorem C9_weekly_table_shape_witness :
    weeklyLookupOk sampleData sampleToday ∧
    (∃ t, my_table sampleData sampleToday = some t ∧ t.length = 7 ∧
      t.map TableRow.dateOrd =
        [sampleToday.toOrd - 7, sampleToday.toOrd - 6, sampleToday.toOrd - 5,
         sampleToday.toOrd - 4, sampleToday.toOrd - 3, sampleToday.toOrd - 2,
         sampleToday.toOrd - 1] ∧
      List.Chain' (· < ·) (t.map TableRow.dateOrd)) :=
  ⟨by unfold weeklyLookupOk; decide,
   C9_weekly_table_shape sampleData sampleToday (by unfold weeklyLookupOk; decide)⟩

end DailyReport

namespace DingTalk

/-- UTF-8 encoding of one Unicode scalar value, as byte values. -/
def utf8Char (c : Char) : List ℕ :=
  let n := c.toNat
  if n < 0x80 then [n]
  else if n < 0x800 then [0xC0 + n / 64, 0x80 + n % 64]
  else if n < 0x10000 then [0xE0 + n / 4096, 0x80 + n / 64 % 64, 0x80 + n % 64]
  else [0xF0 + n / 262144, 0x80 + n / 4096 % 64, 0x80 + n / 64 % 64, 0x80 + n % 64]

/-- `s.encode("utf-8")`: the UTF-8 bytes of a string. -/
def utf8 (s : String) : List ℕ := (s.data.map utf8Char).flatten

/-- Truncation to a 32-bit word. -/
def w32 (n : ℕ) : ℕ := n % 4294967296

/-- Right rotation of a 32-bit word. -/
def rotr (n x : ℕ) : ℕ := x / 2 ^ n + x % 2 ^ n * 2 ^ (32 - n)

/-- Bitwise complement of a 32-bit word. -/
def lnot32 (x : ℕ) : ℕ := Nat.xor x 0xFFFFFFFF

/-- The SHA-256 round constants (FIPS 180-4), written in decimal. -/
def shaK : List ℕ :=
  [1116352408, 1899447441, 3049323471, 3921009573, 961987163, 1508970993,
   2453635748, 2870763221, 3624381080, 310598401, 607225278, 1426881987,
   1925078388, 2162078206, 2614888103, 3248222580, 3835390401, 4022224774,
   264347078, 604807628, 770255983, 1249150122, 1555081692, 1996064986,
   2554220882, 2821834349, 2952996808, 3210313671, 3336571891, 3584528711,
   113926993, 338241895, 666307205, 773529912, 1294757372, 1396182291,
   1695183700, 1986661051, 2177026350, 2456956037, 2730485921, 2820302411,
   3259730800, 3345764771, 3516065817, 3600352804, 4094571909, 275423344,
   430227734, 506948616, 659060556, 883997877, 958139571, 1322822218,
   1537002063, 1747873779, 1955562222, 2024104815, 2227730452, 2361852424,
   2428436474, 2756734187, 3204031479, 3329325298]

/-- The SHA-256 initial hash state (FIPS 180-4), written in decimal. -/
def shaInit : List ℕ :=
  [1779033703, 3144134277, 1013904242, 2773480762,
   1359893119, 2600822924, 528734635, 1541459225]

/-- The 16 message words of one 64-byte block (big endian). -/
def msgWords (block : List ℕ) : List ℕ :=
  (List.range 16).map (fun i =>
    block.getD (4 * i) 0 * 2 ^ 24 + block.getD (4 * i + 1) 0 * 2 ^ 16 +
    block.getD (4 * i + 2) 0 * 2 ^ 8 + block.getD (4 * i + 3) 0)

/-- The SHA-256 message schedule: the 16 block words extended to 64. -/
def schedule (block : List ℕ) : List ℕ :=
  (List.range 48).foldl (fun w _ =>
    let i := w.length
    let w15 := w.getD (i - 15) 0
    let w2 := w.getD (i - 2) 0
    let s0 := Nat.xor (Nat.xor (rotr 7 w15) (rotr 18 w15)) (w15 / 2 ^ 3)
    let s1 := Nat.xor (Nat.xor (rotr 17 w2) (rotr 19 w2)) (w2 / 2 ^ 10)
    w ++ [w32 (w.getD (i - 16) 0 + s0 + w.getD (i - 7) 0 + s1)]) (msgWords block)

/-- The SHA-256 compression function over one 64-byte block. -/
def compressBlock (hstate block : List ℕ) : List ℕ :=
  let w := schedule block
  let st0 := (hstate.getD 0 0, hstate.getD 1 0, hstate.getD 2 0, hstate.getD 3 0,
              hstate.getD 4 0, hstate.getD 5 0, hstate.getD 6 0, hstate.getD 7 0)
  let stN := (List.range 64).foldl (fun st i =>
    let (a, b, c, d, e, f, g, hh) := st
    let bigS1 := Nat.xor (Nat.xor (rotr 6 e) (rotr 11 e)) (rotr 25 e)
    let ch := Nat.xor (Nat.land e f) (Nat.land (lnot32 e) g)
    let t1 := w32 (hh + bigS1 + ch + shaK.getD i 0 + w.getD i 0)
    let bigS0 := Nat.xor (Nat.xor (rotr 2 a) (rotr 13 a)) (rotr 22 a)
    let maj := Nat.xor (Nat.xor (Nat.land a b) (Nat.land a c)) (Nat.land b c)
    let t2 := w32 (bigS0 + maj)
    (w32 (t1 + t2), a, b, c, w32 (d + t1), e, f, g)) st0
  match stN with
  | (a, b, c, d, e, f, g, hh) =>
    [w32 (hstate.getD 0 0 + a), w32 (hstate.getD 1 0 + b), w32 (hstate.getD 2 0 + c),
     w32 (hstate.getD 3 0 + d), w32 (hstate.getD 4 0 + e), w32 (hstate.getD 5 0 + f),
     w32 (hstate.getD 6 0 + g), w32 (hstate.getD 7 0 + hh)]

/-- A message length as 8 big-endian bytes. -/
def be64 (n : ℕ) : List ℕ :=
  [n / 2 ^ 56 % 256, n / 2 ^ 48 % 256, n / 2 ^ 40 % 256, n / 2 ^ 32 % 256,
   n / 2 ^ 24 % 256, n / 2 ^ 16 % 256, n / 2 ^ 8 % 256, n % 256]

/-- SHA-256 padding for a message of `len` bytes. -/
def sha256pad (len : ℕ) : List ℕ :=
  0x80 :: List.replicate ((64 - (len + 9) % 64) % 64) 0 ++ be64 (8 * len)

/-- Split a byte list into 64-byte blocks (structural recursion on a fuel
bound, which `blocks` instantiates with the list's length — every step
consumes at least one byte, so the fuel never runs out first). -/
def blocksGo : ℕ → List ℕ → List (List ℕ)
  | 0, _ => []
  | _, [] => []
  | fuel + 1, b :: l => (b :: l).take 64 :: blocksGo fuel ((b :: l).drop 64)

/-- Split a byte list into 64-byte blocks. -/
def blocks (l : List ℕ) : List (List ℕ) := blocksGo l.length l

/-- SHA-256 of a byte string (`hashlib.sha256(...).digest()`). -/
def sha256 (msg : List ℕ) : List ℕ :=
  let padded := msg ++ sha256pad msg.length
  let hs := (blocks padded).foldl compressBlock shaInit
  (hs.map (fun x => [x / 2 ^ 24 % 256, x / 2 ^ 16 % 256, x / 2 ^ 8 % 256, x % 256])).flatten

/-- `hmac.new(key, msg, digestmod=hashlib.sha256).digest()`: RFC 2104 HMAC
with a 64-byte block size (an over-long key is hashed first). -/
def hmacSha256 (key msg : List ℕ) : List ℕ :=
  let k0 := if 64 < key.length then sha256 key else key
  let k := k0 ++ List.replicate (64 - k0.length) 0
  let ipadded := k.map (fun b => Nat.xor b 0x36)
  let opadded := k.map (fun b => Nat.xor b 0x5C)
  sha256 (opadded ++ sha256 (ipadded ++ msg))

/-- The base64 alphabet. -/
def b64Char (n : ℕ) : Char :=
  "ABCDEFGHIJKLMNOPQRSTUVWXYZabcdefghijklmnopqrstuvwxyz0123456789+/".toList.getD n 'A'

/-- `base64.b64encode`: standard alphabet with `=` padding. -/
def b64encode : List ℕ → String
  | b0 :: b1 :: b2 :: rest =>
    String.mk [b64Char (b0 / 4), b64Char (b0 % 4 * 16 + b1 / 16),
               b64Char (b1 % 16 * 4 + b2 / 64), b64Char (b2 % 64)] ++ b64encode rest
  | [b0, b1] =>
    String.mk [b64Char (b0 / 4), b64Char (b0 % 4 * 16 + b1 / 16), b64Char (b1 % 16 * 4), '=']
  | [b0] => String.mk [b64Char (b0 / 4), b64Char (b0 % 4 * 16), '=', '=']
  | [] => ""

/-- One hex digit, upper case. -/
def hexDigit (n : ℕ) : Char := "0123456789ABCDEF".toList.getD n '0'

/-- Bytes that `urllib.parse.quote_plus` leaves unencoded: ASCII
alphanumerics and `_ . - ~`. -/
def isSafeByte (b : ℕ) : Bool :=
  decide ((48 ≤ b ∧ b ≤ 57) ∨ (65 ≤ b ∧ b ≤ 90) ∨ (97 ≤ b ∧ b ≤ 122) ∨
          b = 95 ∨ b = 46 ∨ b = 45 ∨ b = 126)

/-- `urllib.parse.quote_plus` on one byte. -/
def quoteByte (b : ℕ) : String :=
  if isSafeByte b then String.mk [Char.ofNat b]
  else if b = 32 then "+"
  else String.mk ['%', hexDigit (b / 16), hexDigit (b % 16)]

/-- `urllib.parse.quote_plus`: percent-encode the UTF-8 bytes, spaces as `+`. -/
def quotePlus (s : String) : String := String.join ((utf8 s).map quoteByte)

/-- `DingTalkBot.get_sign` (source lines 30-43): HMAC-SHA256 of
`timestamp + "\n" + secret` keyed by the secret, base64-encoded, then
URL-encoded. -/
def get_sign (secret timestamp : String) : String :=
  let string_to_sign := utf8 (timestamp ++ "\n" ++ secret)
  let hmac_code := hmacSha256 (utf8 secret) string_to_sign
  quotePlus (b64encode hmac_code)

/-- `DingTalkBot.__init__` (source lines 18-24): the final webhook URL.  The
wall-clock timestamp `str(round(time.time() * 1000))` is passed in as a
parameter.  A falsy `secret` (absent or empty) leaves the URL unmodified. -/
def webhookUrl (secret : Option String) (webhook_url timestamp : String) : String :=
  match secret with
  | some s =>
    if s = "" then webhook_url
    else webhook_url ++ "&timestamp=" ++ timestamp ++ "&sign=" ++ get_sign s timestamp
  | none => webhook_url

set_option maxRecDepth 10000 in
/-- The embedding reproduces the NIST SHA-256 vector for `"abc"`. -/
theorem sha256_nist_vector : sha256 (utf8 "abc") =
    [0xba, 0x78, 0x16, 0xbf, 0x8f, 0x01, 0xcf, 0xea, 0x41, 0x41, 0x40, 0xde,
     0x5d, 0xae, 0x22, 0x23, 0xb0, 0x03, 0x61, 0xa3, 0x96, 0x17, 0x7a, 0x9c,
     0xb4, 0x10, 0xff, 0x61, 0xf2, 0x00, 0x15, 0xad] := by decide

set_option maxRecDepth 40000 in
/-- The embedding reproduces RFC 4231 HMAC-SHA256 test case 2. -/
theorem hmacSha256_rfc4231_vector :
    hmacSha256 (utf8 "Jefe") (utf8 "what do ya want for nothing?") =
    [0x5b, 0xdc, 0xc1, 0x46, 0xbf, 0x60, 0x75, 0x4e, 0x6a, 0x04, 0x24, 0x26,
     0x08, 0x95, 0x75, 0xc7, 0x5a, 0x00, 0x3f, 0x08, 0x9d, 0x27, 0x39, 0x83,
     0x9d, 0xec, 0x58, 0xb9, 0x64, 0xec, 0x38, 0x43] := by decide

/-- Base64 and `quote_plus` pins: the three padding shapes, and the escaping
of the base64 alphabet's URL-unsafe characters. -/
theorem b64encode_quotePlus_vector :
    b64encode (utf8 "Man") = "TWFu" ∧ b64encode (utf8 "Ma") = "TWE=" ∧
    b64encode (utf8 "M") = "TQ==" ∧ quotePlus "a+b/c= _.-~" = "a%2Bb%2Fc%3D+_.-~" := by
  refine ⟨?_, ?_, ?_, ?_⟩ <;> decide

/-- The value passed for the `mobiles` argument — `None`, a list of phone
number strings, or one of the non-list values a caller might slip in. -/
inductive PyVal where
  | pyNone : PyVal
  | pyList : List String → PyVal
  | pyStr : String → PyVal
  | pyInt : ℤ → PyVal
deriving DecidableEq

/-- Python truthiness of a `mobiles` value (`if mobiles:`). -/
def PyVal.truthy : PyVal → Bool
  | .pyNone => false
  | .pyList l => !l.isEmpty
  | .pyStr s => s ≠ ""
  | .pyInt n => n ≠ 0

/-- `isinstance(mobiles, list)`. -/
def PyVal.isList : PyVal → Bool
  | .pyList _ => true
  | _ => false

/-- The `at.atMobiles` field: the mention branch stores the list, the plain
branch stores the empty string `""`. -/
inductive AtField where
  | listOf : List String → AtField
  | emptyStr : AtField
deriving DecidableEq

/-- The payload of `send_text`: msgtype, title, the `text.content` body and
the `at` fields. -/
structure TextPayload where
  msgtype : String
  title : String
  content : String
  atMobiles : AtField
  isAtAll : Bool
deriving DecidableEq

/-- The payload of `send_markdown`: msgtype, `markdown.title`,
`markdown.text` and the `at` fields. -/
structure MarkdownPayload where
  msgtype : String
  title : String
  text : String
  atMobiles : AtField
  isAtAll : Bool
deriving DecidableEq

/-- The payload of `send_image`: msgtype, the `image.base64` field and the
`at` fields. -/
structure ImagePayload where
  msgtype : String
  base64 : String
  atMobiles : AtField
  isAtAll : Bool
deriving DecidableEq

/-- The server's HTTP response body: either not JSON at all, or a JSON object
whose integer fields are listed. -/
inductive Resp where
  | invalid : String → Resp
  | valid : List (String × ℤ) → Resp
deriving DecidableEq

/-- `dict.get(key)` on the parsed response object. -/
def jsonGet (fields : List (String × ℤ)) (key : String) : Option ℤ :=
  (fields.find? (fun p => p.1 = key)).map Prod.snd

/-- `response.json().get("errcode") == 0`: a non-JSON body makes
`response.json()` raise `JSONDecodeError`; on a JSON body the comparison is
`False` when the field is absent (`None == 0`). -/
def checkResp : Resp → Except String Bool
  | .invalid _ => .error "JSONDecodeError"
  | .valid fields => .ok (jsonGet fields "errcode" = some 0)

/-- The mention append of `send_text`: `content += f"@{mobile}"` per mobile
(no space). -/
def appendMentions (content : String) (mobiles : List String) : String :=
  mobiles.foldl (fun acc m => acc ++ "@" ++ m) content

/-- The mention append of `send_markdown` and `send_image`:
`+= f" @{mobile}"` per mobile (with a leading space). -/
def appendMentionsSp (text : String) (mobiles : List String) : String :=
  mobiles.foldl (fun acc m => acc ++ " @" ++ m) text

/-- Payload-construction phase of `send_text` (source lines 53-81): truthy
list builds the mention payload with `isAtAll=False`; truthy non-list raises
`TypeError`; falsy builds the plain payload with `atMobiles=""`. -/
def textPayload (title content : String) (mobiles : PyVal) (is_at_all : Bool) :
    Except String TextPayload :=
  if mobiles.truthy then
    match mobiles with
    | .pyList ms =>
      .ok ⟨"text", title, appendMentions content ms, .listOf ms, false⟩
    | _ => .error "TypeError"
  else
    .ok ⟨"text", title, content, .emptyStr, is_at_all⟩

/-- `DingTalkBot.send_text` (source lines 46-88): build the payload, POST it,
return whether the response's `errcode` is 0.  The response is an input; the
returned pair is (payload actually POSTed, boolean result). -/
def send_text (title content : String) (mobiles : PyVal) (is_at_all : Bool)
    (resp : Resp) : Except String (TextPayload × Bool) := do
  let payload ← textPayload title content mobiles is_at_all
  let ok ← checkResp resp
  return (payload, ok)

/-- Payload-construction phase of `send_markdown` (source lines 124-152). -/
def markdownPayload (title text : String) (mobiles : PyVal) (is_at_all : Bool) :
    Except String MarkdownPayload :=
  if mobiles.truthy then
    match mobiles with
    | .pyList ms =>
      .ok ⟨"markdown", title, appendMentionsSp text ms, .listOf ms, false⟩
    | _ => .error "TypeError"
  else
    .ok ⟨"markdown", title, text, .emptyStr, is_at_all⟩

/-- `DingTalkBot.send_markdown` (source lines 115-159). -/
def send_markdown (title text : String) (mobiles : PyVal) (is_at_all : Bool)
    (resp : Resp) : Except String (MarkdownPayload × Bool) := do
  let payload ← markdownPayload title text mobiles is_at_all
  let ok ← checkResp resp
  return (payload, ok)

/-- Payload-construction phase of `send_image` (source lines 251-277): in the
mention branch the `@{mobile}` tags are appended to the `image.base64` field
itself. -/
def imagePayload (image_base64 : String) (mobiles : PyVal) (is_at_all : Bool) :
    Except String ImagePayload :=
  if mobiles.truthy then
    match mobiles with
    | .pyList ms =>
      .ok ⟨"image", appendMentionsSp image_base64 ms, .listOf ms, false⟩
    | _ => .error "TypeError"
  else
    .ok ⟨"image", image_base64, .emptyStr, is_at_all⟩

/-- `DingTalkBot.send_image` (source lines 247-284). -/
def send_image (image_base64 : String) (mobiles : PyVal) (is_at_all : Bool)
    (resp : Resp) : Except String (ImagePayload × Bool) := do
  let payload ← imagePayload image_base64 mobiles is_at_all
  let ok ← checkResp resp
  return (payload, ok)

theorem joinCons (x : String) (l : List String) :
    String.join (x :: l) = x ++ String.join l := by
  apply String.ext
  simp

/-- The `content += f"@\x7bmobile\x7d"` loop equals appending the
concatenation of the individual `@` tags. -/
theorem appendMentions_eq (c : String) (ms : List String) :
    appendMentions c ms = c ++ String.join (ms.map (fun m => "@" ++ m)) := by
  induction ms generalizing c with
  | nil => simp [appendMentions, String.join, String.append_empty]
  | cons m t ih =>
    simp only [appendMentions, List.foldl_cons, List.map_cons, joinCons] at *
    rw [ih]
    simp only [String.append_assoc]

/-- The `+= f" @\x7bmobile\x7d"` loop equals appending the concatenation of
the individual space-prefixed `@` tags. -/
theorem appendMentionsSp_eq (c : String) (ms : List String) :
    appendMentionsSp c ms = c ++ String.join (ms.map (fun m => " @" ++ m)) := by
  induction ms generalizing c with
  | nil => simp [appendMentionsSp, String.join, String.append_empty]
  | cons m t ih =>
    simp only [appendMentionsSp, List.foldl_cons, List.map_cons, joinCons] at *
    rw [ih]
    simp only [String.append_assoc]

/-- C2: with a non-empty secret the client's URL is the base webhook URL with
`&timestamp=` and `&sign=` appended, where the signature is the URL-encoded
base64 of the HMAC-SHA256 of `timestamp + "\n" + secret` keyed by the UTF-8
secret; with the secret absent the URL is unmodified.  The wall-clock
timestamp (`str(round(time.time() * 1000))`, unix milliseconds) is modelled
as the explicit `timestamp` argument. -/
theorem C2_signing_scheme (secret webhook_url timestamp : String)
    (hs : secret ≠ "") :
    webhookUrl (some secret) webhook_url timestamp =
      webhook_url ++ "&timestamp=" ++ timestamp ++ "&sign=" ++
        quotePlus (b64encode (hmacSha256 (utf8 secret)
          (utf8 (timestamp ++ "\n" ++ secret)))) ∧
    webhookUrl none webhook_url timestamp = webhook_url := by
  refine ⟨?_, rfl⟩
  simp [webhookUrl, hs, get_sign]

theorem C2_signing_scheme_witness :
    ("sec" ≠ "") ∧
    (webhookUrl (some "sec") "https://h?a=1" "123" =
      "https://h?a=1" ++ "&timestamp=" ++ "123" ++ "&sign=" ++
        quotePlus (b64encode (hmacSha256 (utf8 "sec") (utf8 ("123" ++ "\n" ++ "sec")))) ∧
    webhookUrl none "https://h?a=1" "123" = "https://h?a=1") :=
  ⟨by decide, C2_signing_scheme "sec" "https://h?a=1" "123" (by decide)⟩

/-- C6 counterexample: on a response body that is not valid JSON,
`send_text` raises (`response.json()` throws `JSONDecodeError`), it does not
return `False` — refuting the claim at this concrete input. -/
theorem C6_result_counterexample :
    send_text "t" "c" .pyNone false (.invalid "<html>") = .error "JSONDecodeError" ∧
    send_text "t" "c" .pyNone false (.invalid "<html>") ≠
      .ok (⟨"text", "t", "c", .emptyStr, false⟩, false) := by
  refine ⟨rfl, fun h => Except.noConfusion h⟩

/-- C6 amended: a send operation returns `True` iff the response parses as
JSON whose `errcode` field is 0; any other or missing status value gives
`False`; a body that is not valid JSON makes the operation raise a JSON
decoding error (propagated, uncaught) rather than return `False`. -/
theorem C6_result_contract (title content text : String) (ia : Bool)
    (fields : List (String × ℤ)) (raw : String) :
    send_text title content .pyNone ia (.valid fields) =
      .ok (⟨"text", title, content, .emptyStr, ia⟩,
           decide (jsonGet fields "errcode" = some 0)) ∧
    send_text title content .pyNone ia (.invalid raw) = .error "JSONDecodeError" ∧
    send_markdown title text .pyNone ia (.valid fields) =
      .ok (⟨"markdown", title, text, .emptyStr, ia⟩,
           decide (jsonGet fields "errcode" = some 0)) ∧
    send_markdown title text .pyNone ia (.invalid raw) = .error "JSONDecodeError" := by
  refine ⟨?_, rfl, ?_, rfl⟩ <;>
    simp [send_text, send_markdown, textPayload, markdownPayload, PyVal.truthy,
          checkResp, bind, Except.bind, pure, Except.pure]

/-- C7 counterexample: the empty string is not a list, yet `send_text`
accepts it (it is falsy, so the `isinstance` check is never reached), builds
the plain payload and proceeds to the network call — refuting "every non-list
value fails fast". -/
theorem C7_nonlist_counterexample :
    send_text "t" "A" (.pyStr "") false (.valid [("errcode", 0)]) =
      .ok (⟨"text", "t", "A", .emptyStr, false⟩, true) ∧
    send_markdown "t" "A" (.pyStr "") false (.valid [("errcode", 0)]) =
      .ok (⟨"markdown", "t", "A", .emptyStr, false⟩, true) ∧
    send_image "img" (.pyStr "") false (.valid [("errcode", 0)]) =
      .ok (⟨"image", "img", .emptyStr, false⟩, true) := by
  refine ⟨?_, ?_, ?_⟩ <;> rfl

/-- C7 amended: for every *truthy* non-list `mobiles` value, `send_text`,
`send_markdown` and `send_image` raise `TypeError` uniformly in the server
response (the error happens while building the payload, before the network
call); falsy non-list values (`None`, `""`, `0`) are instead treated as
"no mentions" and do not raise. -/
theorem C7_nonlist_mobiles (v : PyVal) (hv : v.truthy = true)
    (hl : v.isList = false) (title content text img : String) (ia : Bool)
    (resp : Resp) :
    send_text title content v ia resp = .error "TypeError" ∧
    send_markdown title text v ia resp = .error "TypeError" ∧
    send_image img v ia resp = .error "TypeError" := by
  cases v with
  | pyNone => simp [PyVal.truthy] at hv
  | pyList l => simp [PyVal.isList] at hl
  | pyStr s =>
    refine ⟨?_, ?_, ?_⟩ <;>
      simp [send_text, send_markdown, send_image, textPayload, markdownPayload,
            imagePayload, hv, bind, Except.bind]
  | pyInt n =>
    refine ⟨?_, ?_, ?_⟩ <;>
      simp [send_text, send_markdown, send_image, textPayload, markdownPayload,
            imagePayload, hv, bind, Except.bind]

theorem C7_nonlist_mobiles_witness :
    ((PyVal.pyStr "0").truthy = true) ∧ ((PyVal.pyStr "0").isList = false) ∧
    (send_text "t" "c" (.pyStr "0") false (.invalid "r") = .error "TypeError" ∧
     send_markdown "t" "x" (.pyStr "0") false (.invalid "r") = .error "TypeError" ∧
     send_image "i" (.pyStr "0") false (.invalid "r") = .error "TypeError") :=
  ⟨by decide, by decide,
   C7_nonlist_mobiles (.pyStr "0") (by decide) (by decide) "t" "c" "x" "i" false (.invalid "r")⟩

/-- C8: with a non-empty mobiles list, the text payload's body is the content
with each `@\x7bmobile\x7d` tag appended in order, `atMobiles` is exactly the
mobiles list and `isAtAll` is hard-coded `False`. -/
theorem C8_text_mention_payload (title content : String) (ms : List String)
    (ia : Bool) (h : ms ≠ []) :
    textPayload title content (.pyList ms) ia =
      .ok ⟨"text", title, content ++ String.join (ms.map (fun m => "@" ++ m)),
           .listOf ms, false⟩ := by
  rw [← appendMentions_eq]
  simp [textPayload, PyVal.truthy, h]

theorem C8_text_mention_payload_witness :
    (["13800000000"] ≠ ([] : List String)) ∧
    textPayload "t" "A" (.pyList ["13800000000"]) false =
      .ok ⟨"text", "t", "A@13800000000", .listOf ["13800000000"], false⟩ := by
  refine ⟨by decide, ?_⟩
  rw [C8_text_mention_payload "t" "A" ["13800000000"] false (by decide)]
  exact congrArg Except.ok (by decide)

/-- C10: with a non-empty mobiles list, `send_image` appends each
` @\x7bmobile\x7d` tag to the `image.base64` field itself (the mention text
lands inside the image data, there being no message body), with `atMobiles`
the mobiles list and `isAtAll` hard-coded `False`. -/
theorem C10_image_mention_payload (img : String) (ms : List String)
    (ia : Bool) (h : ms ≠ []) :
    imagePayload img (.pyList ms) ia =
      .ok ⟨"image", img ++ String.join (ms.map (fun m => " @" ++ m)),
           .listOf ms, false⟩ := by
  rw [← appendMentionsSp_eq]
  simp [imagePayload, PyVal.truthy, h]

theorem C10_image_mention_payload_witness :
    (["13800000000"] ≠ ([] : List String)) ∧
    imagePayload "AAAA" (.pyList ["13800000000"]) false =
      .ok ⟨"image", "AAAA @13800000000", .listOf ["13800000000"], false⟩ := by
  refine ⟨by decide, ?_⟩
  rw [C10_image_mention_payload "AAAA" ["13800000000"] false (by decide)]
  exact congrArg Except.ok (by decide)

end DingTalk
